import Mathlib

/-!
Shallow embedding of `bot.py` from the `python-rss2irc` repository: an IRC
bot that polls RSS feeds and announces new entries to a channel.

Python strings are modelled as `List Char` (the `Str` abbreviation).  The
persistence layer (`db.py`, imported as `FeedDB` but not part of the given
sources) is modelled from the spec where its behaviour matters; everything
else is translated directly from `bot.py`.
-/

/-- Python strings, modelled as lists of characters. -/
abbrev Str := List Char

/-- Conversion from a Lean string literal to the `Str` model. -/
def lit (s : String) : Str := s.toList

/-! ## Announcer: `IRCBot.send_msg` (bot.py lines 103-113) -/

/-- `re.findall('.{1,510}', line)`: greedy non-overlapping matches, i.e. the
line cut into consecutive chunks of 510 characters, with a shorter final
chunk; an empty line yields no chunk at all. -/
def chunks510 (l : Str) : List Str :=
  if h : l = [] then [] else l.take 510 :: chunks510 (l.drop 510)
termination_by l.length
decreasing_by
  simp only [List.length_drop]
  exact Nat.sub_lt (List.length_pos.mpr h) (by omega)

/-- Python `msg.split("\n")`: split on every newline, keeping empty pieces
(so `"".split("\n") == [""]`). -/
def splitNl : Str → List Str
  | [] => [[]]
  | c :: rest =>
    if c = '\n' then [] :: splitNl rest
    else
      match splitNl rest with
      | [] => [[c]]
      | l :: ls => (c :: l) :: ls

/-- `IRCBot.send_msg(target, msg)` (bot.py lines 103-113): split `msg` on
newlines and each line into chunks of at most 510 characters; the result is
the list of payloads passed to `connection.privmsg`, in order. -/
def send_msg (msg : Str) : List Str :=
  (splitNl msg).flatMap chunks510

/-! ## Feed fetcher: `Bot.__fetch_feed` one poll cycle (bot.py lines 157-191) -/

/-- One feed entry as delivered by the feed-parsing capability
(`feedparser`): `title` and `link` are always present, `published` and
`updated` may be missing (attribute access raises then, modelled by
`Option`). -/
structure Entry where
  title : Str
  link : Str
  published : Option Str
  updated : Option Str

/-- bot.py lines 171-178: take `newsitem.published`; on exception fall back
to `newsitem.updated`; on exception fall back to the literal "no date". -/
def dateOf (e : Entry) : Str :=
  match e.published with
  | some d => d
  | none =>
    match e.updated with
    | some d => d
    | none => lit "no date"

/-- Modelled from the spec: the Persistence Gateway's state.  `db.py` is not
among the given sources; per the spec, the Gateway stores the set of seen
news items, "uniqueness is enforced by the Gateway keyed on (feed id, url)
or equivalent". -/
structure GatewayState where
  seen : List (Nat × Str)
deriving DecidableEq

/-- Modelled from the spec: `insert_news_if_new(feed_id, title, url, date)
-> boolean (true iff newly inserted)`, atomic per (feed id, url): returns
`true` and records the key when (feed id, url) is unseen, else `false`
without a change. -/
def insert_news (st : GatewayState) (feedId : Nat) (title url date : Str) :
    Bool × GatewayState :=
  if (feedId, url) ∈ st.seen then (false, st)
  else (true, ⟨(feedId, url) :: st.seen⟩)

/-- `IRCBot.post_news` (bot.py lines 115-121) formats the announcement text
sent to the channel: `feed_name + ": " + title + ", " + url + ", " + date`. -/
def post_news_msg (feed_name title url date : Str) : Str :=
  feed_name ++ lit ": " ++ title ++ lit ", " ++ url ++ lit ", " ++ date

/-- One Gateway insert performed during a cycle, with its result; the
observational trace of `self.__db.insert_news(...)` calls. -/
structure InsertCall where
  feedId : Nat
  title : Str
  url : Str
  date : Str
  isNew : Bool
deriving DecidableEq

/-- Everything one poll cycle produces: channel announcements (in emission
order), the Gateway state afterwards, and the trace of insert calls. -/
structure CycleResult where
  announcements : List Str
  db : GatewayState
  inserts : List InsertCall
deriving DecidableEq

/-- The body of the `for newsitem in ...` loop of `Bot.__fetch_feed`
(bot.py lines 165-183), over the list of entries in processing order.
`shorten` is the `tinyurl.create_one` capability: `.ok s` models a returned
string (possibly the literal "Error" marker, bot.py line 168), `.error`
models a raised exception.  A raised exception escapes the loop to the
per-cycle handler (bot.py lines 186-188), abandoning the remaining entries;
announcements and inserts already made stand. -/
def fetch_entries (shorten : Str → Except Unit Str) (feedId : Nat)
    (feedName : Str) (st : GatewayState) : List Entry → CycleResult
  | [] => ⟨[], st, []⟩
  | e :: rest =>
    match shorten e.link with
    | .error _ => ⟨[], st, []⟩
    | .ok s =>
      let newsurl := if s = lit "Error" then e.link else s
      let newsdate := dateOf e
      let ins := insert_news st feedId e.title newsurl newsdate
      let r := fetch_entries shorten feedId feedName ins.2 rest
      ⟨(if ins.1 then [post_news_msg feedName e.title newsurl newsdate] else [])
          ++ r.announcements,
        r.db,
        ⟨feedId, e.title, newsurl, newsdate, ins.1⟩ :: r.inserts⟩

/-- One poll cycle of `Bot.__fetch_feed` (bot.py lines 159-185): the parsed
document's entries arrive in document order and are processed reversed,
oldest first (`news.entries[::-1]`, line 165). -/
def fetch_feed_cycle (shorten : Str → Except Unit Str) (feedId : Nat)
    (feedName : Str) (entries : List Entry) (st : GatewayState) : CycleResult :=
  fetch_entries shorten feedId feedName st entries.reverse

/-- The URL a fully processed entry is recorded and announced with
(bot.py lines 167-169): the shortened URL, except that the literal "Error"
marker falls back to the original link.  (When `shorten` raises, the entry
is never recorded at all; the value here is immaterial to the trace.) -/
def urlOf (shorten : Str → Except Unit Str) (e : Entry) : Str :=
  match shorten e.link with
  | .ok s => if s = lit "Error" then e.link else s
  | .error _ => e.link

/-! ## Command dispatcher: `IRCBot.__handle_msg` (bot.py lines 31-73) -/

/-- Python `str.startswith`. -/
def startswith (pat s : Str) : Bool :=
  match pat, s with
  | [], _ => true
  | _ :: _, [] => false
  | p :: ps, c :: cs => p = c && startswith ps cs

/-- Structural worker for `replaceAll`; the fuel is an upper bound on the
length of the remaining text, so it never runs out. -/
def replaceAllGo (pat repl : Str) : Nat → Str → Str
  | _, [] => []
  | 0, s => s
  | fuel + 1, s =>
    if pat ≠ [] ∧ startswith pat s then
      repl ++ replaceAllGo pat repl fuel (s.drop pat.length)
    else
      match s with
      | [] => []
      | c :: cs => c :: replaceAllGo pat repl fuel cs

/-- Python `s.replace(pat, repl)` for a non-empty pattern: replace every
non-overlapping occurrence, scanning left to right. -/
def replaceAll (pat repl s : Str) : Str :=
  replaceAllGo pat repl s.length s

/-- The whitespace characters stripped by Python `str.strip()`. -/
def isPySpace (c : Char) : Bool :=
  c = ' ' || c = '\t' || c = '\n' || c = '\r' || c = '\x0b' || c = '\x0c'

/-- Python `str.strip()`: drop leading and trailing whitespace. -/
def pyStrip (s : Str) : Str :=
  ((s.dropWhile isPySpace).reverse.dropWhile isPySpace).reverse

/-- Python `str.lower()` (the messages involved are ASCII). -/
def pyLower (s : Str) : Str := s.map Char.toLower

/-- Digit run to its value, `none` when empty or not all digits. -/
def parseDigits (s : Str) : Option Nat :=
  match s with
  | [] => none
  | ds =>
    if ds.all (fun c => c.isDigit) then
      some (ds.foldl (fun n c => n * 10 + (c.toNat - 48)) 0)
    else none

/-- Python `int(s)`: optional surrounding whitespace, optional sign, a
non-empty digit run; anything else raises (modelled as `none`). -/
def pyInt (s : Str) : Option Int :=
  match pyStrip s with
  | '+' :: rest => (parseDigits rest).map Int.ofNat
  | '-' :: rest => (parseDigits rest).map (fun n => -(n : Int))
  | t => (parseDigits t).map Int.ofNat

/-- A stored feed row as the dispatcher formats it (bot.py line 42):
`entry[0]` id, `entry[1]` name, `entry[2]` source URL, `entry[3]` poll
interval in minutes. -/
structure FeedRow where
  id : Nat
  name : Str
  url : Str
  interval : Nat

/-- A stored news row as the dispatcher formats it (bot.py lines 54, 64):
`entry[0]` id, `entry[1]` title, `entry[2]` url, `entry[3]` date. -/
structure NewsRow where
  id : Nat
  title : Str
  url : Str
  date : Str

/-- `str(n)` for the numbers the dispatcher prints. -/
def natStr (n : Nat) : Str := (Nat.repr n).toList

/-- The Persistence Gateway as seen by the dispatcher: each query either
returns a value or raises (`.error`), exactly the failure the outer
`try/except` of `__handle_msg` guards against. -/
structure DB where
  get_feeds : Except Unit (List FeedRow)
  get_feeds_count : Except Unit Nat
  get_news_count : Except Unit Nat
  get_latest_news : Except Unit (List NewsRow)
  get_news_from_feed : Int → Except Unit (List NewsRow)

/-- One `answer +=` line of the `!list` loop (bot.py line 42). -/
def feedLine (e : FeedRow) : Str :=
  lit "#" ++ natStr e.id ++ lit ": " ++ e.name ++ lit ", " ++ e.url
    ++ lit ", updated every " ++ natStr e.interval ++ lit " min" ++ lit "\n"

/-- One `answer +=` line of the `!last` / `!lastfeed` loops
(bot.py lines 54 and 64). -/
def newsLine (e : NewsRow) : Str :=
  lit "#" ++ natStr e.id ++ lit ": " ++ e.title ++ lit ", " ++ e.url
    ++ lit ", " ++ e.date ++ lit "\n"

/-- `IRCBot.__help_msg` (bot.py lines 123-133). -/
def help_msg (nick : Str) : Str :=
  lit "Help:\n    Send all commands as a private message to " ++ nick
    ++ lit "\n    - !help         Prints this help\n    - !list         Prints all feeds\n    - !stats        Prints some statistics\n    - !last         Prints the last 25 entries\n    - !lastfeed <feedid> Prints the last 25 entries from a specific feed\n"

/-- The `try` body of `IRCBot.__handle_msg` (bot.py lines 33-68): computes
the answer, propagating any Gateway exception; the early `return` on a
malformed `!lastfeed` id (line 62) is an ordinary return, not an
exception. -/
def computeAnswer (db : DB) (nick : Str) (msg : Str) : Except Unit Str :=
  if msg = lit "!help" then .ok (help_msg nick)
  else if msg = lit "!list" then do
    let feeds ← db.get_feeds
    .ok (feeds.foldl (fun answer e => answer ++ feedLine e) [])
  else if msg = lit "!stats" then do
    let feeds_count ← db.get_feeds_count
    let news_count ← db.get_news_count
    .ok (lit "Feeds: " ++ natStr feeds_count ++ lit ", News: " ++ natStr news_count)
  else if msg = lit "!last" then do
    let news ← db.get_latest_news
    .ok ((news.reverse).foldl (fun answer e => answer ++ newsLine e) [])
  else if startswith (lit "!lastfeed") msg then
    match pyInt (pyStrip (replaceAll (lit "!lastfeed") [] msg)) with
    | none => .ok (lit "Wrong command: " ++ msg ++ lit ", use: !lastfeed <feedid>")
    | some feedid => do
      let news ← db.get_news_from_feed feedid
      .ok ((news.reverse).foldl (fun answer e => answer ++ newsLine e) [])
  else .ok (help_msg nick)

/-- `IRCBot.__handle_msg` (bot.py lines 31-73): the `try` body's answer, or
the generic failure reply if it raised. -/
def handle_msg (db : DB) (nick : Str) (msg : Str) : Str :=
  match computeAnswer db nick msg with
  | .ok answer => answer
  | .error _ => lit "Something went wrong :("

/-! ## Message event handlers (bot.py lines 75-101) -/

/-- An inbound private or channel message event as delivered by the chat
transport. -/
structure Event where
  arguments : List Str
  sourceNick : Str

/-- `IRCBot.on_privmsg` (bot.py lines 75-85), returning the list of
`send_msg(target, text)` calls it makes. -/
def on_privmsg (db : DB) (nick : Str) (ev : Event) : List (Str × Str) :=
  match ev.arguments with
  | [] => []
  | a :: _ =>
    let msg := pyStrip (pyLower a)
    [(ev.sourceNick, handle_msg db nick msg)]

/-- `IRCBot.on_pubmsg` (bot.py lines 87-97), returning the list of
`send_msg(target, text)` calls it makes: only `!help` is answered, and
always privately to the sender. -/
def on_pubmsg (nick : Str) (ev : Event) : List (Str × Str) :=
  match ev.arguments with
  | [] => []
  | a :: _ =>
    let msg := pyStrip (pyLower a)
    if msg = lit "!help" then [(ev.sourceNick, help_msg nick)] else []

/-- The transport connection as the nickname-collision handler sees it: the
current nickname and the log of rename requests issued so far. -/
structure Conn where
  nickname : Str
  renameRequests : List Str

/-- `connection.nick(newNick)`: issue one rename request; the server then
reports `newNick` as the current nickname. -/
def conn_nick (c : Conn) (newNick : Str) : Conn :=
  ⟨newNick, c.renameRequests ++ [newNick]⟩

/-- `IRCBot.on_nicknameinuse` (bot.py lines 99-101): request the current
nickname with "_" appended. -/
def on_nicknameinuse (c : Conn) : Conn :=
  conn_nick c (c.nickname ++ lit "_")

/-- A Gateway whose every query raises. -/
def failDB : DB :=
  ⟨.error (), .error (), .error (), .error (), fun _ => .error ()⟩

/-- A URL-shortening capability that raises on every call. -/
def badShorten : Str → Except Unit Str := fun _ => .error ()

/-- A URL-shortening capability that always returns the "Error" marker. -/
def markerShorten : Str → Except Unit Str := fun _ => .ok (lit "Error")

/-! ## Theorems -/

/-- C4: if computing the reply raises any exception (e.g. a Gateway query
fails), `__handle_msg` catches it and returns the generic failure reply
"Something went wrong :("; being a total function into `Str`, `handle_msg`
never propagates an exception to its caller. -/
theorem handle_msg_catches_errors (db : DB) (nick msg : Str)
    (h : computeAnswer db nick msg = .error ()) :
    handle_msg db nick msg = lit "Something went wrong :(" := by
  simp [handle_msg, h]

/-- Witness for C4: with a Gateway whose queries all raise, `!list` gets
the generic failure reply. -/
theorem handle_msg_catches_errors_witness :
    handle_msg failDB (lit "n") (lit "!list") = lit "Something went wrong :(" :=
  handle_msg_catches_errors failDB (lit "n") (lit "!list") (by rfl)

/-- C9: each "nickname in use" event issues exactly one rename request,
for the current nickname with one "_" suffix appended; two consecutive
collision events leave the nickname at the original plus two suffix
characters, having issued exactly those two requests. -/
theorem on_nicknameinuse_appends_suffix (c : Conn) :
    on_nicknameinuse c
        = ⟨c.nickname ++ lit "_", c.renameRequests ++ [c.nickname ++ lit "_"]⟩
      ∧ (on_nicknameinuse (on_nicknameinuse c)).nickname = c.nickname ++ lit "__"
      ∧ (on_nicknameinuse (on_nicknameinuse c)).renameRequests
          = c.renameRequests ++ [c.nickname ++ lit "_", c.nickname ++ lit "__"] := by
  refine ⟨rfl, ?_, ?_⟩
  · show (c.nickname ++ lit "_") ++ lit "_" = c.nickname ++ lit "__"
    rw [List.append_assoc]
    rfl
  · show (c.renameRequests ++ [c.nickname ++ lit "_"]) ++ [(c.nickname ++ lit "_") ++ lit "_"]
        = c.renameRequests ++ [c.nickname ++ lit "_", c.nickname ++ lit "__"]
    rw [List.append_assoc, List.append_assoc]
    rfl

/-- C10: a private or public message event with an empty arguments list is
dropped at once: no reply is computed, no Gateway query is made (the result
does not depend on `db`), and no outgoing message is sent. -/
theorem empty_arguments_no_reply (db : DB) (nick : Str) (ev : Event)
    (h : ev.arguments = []) :
    on_privmsg db nick ev = [] ∧ on_pubmsg nick ev = [] := by
  obtain ⟨args, src⟩ := ev
  cases h
  exact ⟨rfl, rfl⟩

/-- Witness for C10: a concrete empty-argument event, against the
all-failing Gateway, produces no outgoing message from either handler. -/
theorem empty_arguments_no_reply_witness :
    on_privmsg failDB (lit "bot") ⟨[], lit "alice"⟩ = []
      ∧ on_pubmsg (lit "bot") ⟨[], lit "alice"⟩ = [] :=
  empty_arguments_no_reply failDB (lit "bot") ⟨[], lit "alice"⟩ rfl

/-- C8: on a public channel message, only the text "!help" (after
lowercasing and trimming) produces a reply, and that reply is exactly one
private message to the sender (never to the channel); any other public
message produces no outgoing message at all. -/
theorem on_pubmsg_only_help (nick : Str) (ev : Event) (a : Str)
    (rest : List Str) (h : ev.arguments = a :: rest) :
    on_pubmsg nick ev =
      (if pyStrip (pyLower a) = lit "!help"
        then [(ev.sourceNick, help_msg nick)] else []) := by
  obtain ⟨args, src⟩ := ev
  cases h
  simp only [on_pubmsg]

set_option maxRecDepth 4096 in
/-- Witness for C8: "hello" on the channel produces nothing; " !HELP "
produces exactly one private reply to the sender. -/
theorem on_pubmsg_only_help_witness :
    on_pubmsg (lit "bot") ⟨[lit "hello"], lit "alice"⟩ = []
      ∧ on_pubmsg (lit "bot") ⟨[lit " !HELP "], lit "alice"⟩
          = [(lit "alice", help_msg (lit "bot"))] := by
  constructor
  · rw [on_pubmsg_only_help (lit "bot") ⟨[lit "hello"], lit "alice"⟩ (lit "hello") [] rfl]
    decide
  · rw [on_pubmsg_only_help (lit "bot") ⟨[lit " !HELP "], lit "alice"⟩ (lit " !HELP ") [] rfl]
    decide

/-- A successful `startswith` exhibits the tail after the pattern. -/
lemma startswith_eq_append {pat s : Str} (h : startswith pat s = true) :
    ∃ t, s = pat ++ t := by
  induction pat generalizing s with
  | nil => exact ⟨s, rfl⟩
  | cons p ps ih =>
    cases s with
    | nil => simp [startswith] at h
    | cons c cs =>
      simp only [startswith, Bool.and_eq_true, decide_eq_true_eq] at h
      obtain ⟨t, ht⟩ := ih h.2
      exact ⟨t, by rw [h.1, List.cons_append, ← ht]⟩

/-- Unfolding one successfully shortened entry of the fetch loop. -/
lemma fetch_entries_cons_ok (shorten : Str → Except Unit Str) (feedId : Nat)
    (feedName : Str) (st : GatewayState) (e : Entry) (rest : List Entry)
    (s : Str) (h : shorten e.link = .ok s) :
    fetch_entries shorten feedId feedName st (e :: rest) =
      (let newsurl := if s = lit "Error" then e.link else s
       let ins := insert_news st feedId e.title newsurl (dateOf e)
       let r := fetch_entries shorten feedId feedName ins.2 rest
       ⟨(if ins.1 then [post_news_msg feedName e.title newsurl (dateOf e)] else [])
          ++ r.announcements,
        r.db,
        ⟨feedId, e.title, newsurl, dateOf e, ins.1⟩ :: r.inserts⟩) := by
  rw [fetch_entries, h]

/-- C6: for an entry that reaches the date extraction (its shortening call
returned), the date recorded in the Gateway insert and used in the
announcement is `published` if present, else `updated` if present, else the
literal "no date". -/
theorem entry_date_fallback (shorten : Str → Except Unit Str) (feedId : Nat)
    (feedName : Str) (st : GatewayState) (e : Entry) (rest : List Entry)
    (s : Str) (h : shorten e.link = .ok s) :
    fetch_entries shorten feedId feedName st (e :: rest) =
      (let d := match e.published with
                | some d => d
                | none =>
                  match e.updated with
                  | some d => d
                  | none => lit "no date"
       let u := if s = lit "Error" then e.link else s
       let ins := insert_news st feedId e.title u d
       let r := fetch_entries shorten feedId feedName ins.2 rest
       ⟨(if ins.1 then [post_news_msg feedName e.title u d] else [])
          ++ r.announcements,
        r.db,
        ⟨feedId, e.title, u, d, ins.1⟩ :: r.inserts⟩) := by
  rw [fetch_entries_cons_ok shorten feedId feedName st e rest s h]
  rfl

/-- Witness for C6: a concrete entry with no `published` but an `updated`
timestamp is recorded and announced with the `updated` date. -/
theorem entry_date_fallback_witness :
    fetch_entries (fun l => .ok ('s' :: l)) 7 (lit "F") ⟨[]⟩
        [⟨lit "t", lit "u", none, some (lit "DATE")⟩] =
      (let d := match (none : Option Str) with
                | some d => d
                | none =>
                  match some (lit "DATE") with
                  | some d => d
                  | none => lit "no date"
       let u := if 's' :: lit "u" = lit "Error" then lit "u" else 's' :: lit "u"
       let ins := insert_news ⟨[]⟩ 7 (lit "t") u d
       let r := fetch_entries (fun l => .ok ('s' :: l)) 7 (lit "F") ins.2 []
       ⟨(if ins.1 then [post_news_msg (lit "F") (lit "t") u d] else [])
          ++ r.announcements,
        r.db,
        ⟨7, lit "t", u, d, ins.1⟩ :: r.inserts⟩) :=
  entry_date_fallback (fun l => .ok ('s' :: l)) 7 (lit "F") ⟨[]⟩
    ⟨lit "t", lit "u", none, some (lit "DATE")⟩ [] ('s' :: lit "u") rfl

/-- Counterexample to C5: with a shortening capability that raises (rather
than returning the "Error" marker), a fresh entry is NOT processed: the
exception escapes the entry loop to the per-cycle handler, so no Gateway
insert happens and no announcement is made, contradicting "the fetcher uses
the entry's original link as the announced URL and still processes that
entry". -/
theorem shorten_raise_aborts_entry :
    fetch_feed_cycle badShorten 1 (lit "feed")
        [⟨lit "t", lit "http://example.com/a", none, none⟩] ⟨[]⟩
      = ⟨[], ⟨[]⟩, []⟩ := by
  rfl

/-- C5 (amended): when the shortening capability returns its literal
"Error" marker, the fetcher uses the entry's original link as the recorded
and announced URL and still processes the entry — and goes on to the rest
of the list.  (When the capability raises instead, the entry is abandoned;
see the counterexample.) -/
theorem shorten_error_marker_falls_back (shorten : Str → Except Unit Str)
    (feedId : Nat) (feedName : Str) (st : GatewayState) (e : Entry)
    (rest : List Entry) (h : shorten e.link = .ok (lit "Error")) :
    (fetch_entries shorten feedId feedName st (e :: rest)).inserts
      = ⟨feedId, e.title, e.link, dateOf e,
          (insert_news st feedId e.title e.link (dateOf e)).1⟩
        :: (fetch_entries shorten feedId feedName
              (insert_news st feedId e.title e.link (dateOf e)).2 rest).inserts
    ∧ (fetch_entries shorten feedId feedName st (e :: rest)).announcements
      = (if (insert_news st feedId e.title e.link (dateOf e)).1
          then [post_news_msg feedName e.title e.link (dateOf e)] else [])
        ++ (fetch_entries shorten feedId feedName
              (insert_news st feedId e.title e.link (dateOf e)).2 rest).announcements := by
  rw [fetch_entries_cons_ok shorten feedId feedName st e rest (lit "Error") h]
  exact ⟨rfl, rfl⟩

/-- Witness for C5 (amended): a concrete fresh entry, shortened to the
"Error" marker, is recorded with its original link and announced. -/
theorem shorten_error_marker_falls_back_witness :
    (fetch_entries markerShorten 1 (lit "F") ⟨[]⟩
        [⟨lit "t", lit "http://u", none, none⟩]).inserts
      = [⟨1, lit "t", lit "http://u", lit "no date", true⟩] := by
  rw [(shorten_error_marker_falls_back markerShorten 1 (lit "F") ⟨[]⟩
        ⟨lit "t", lit "http://u", none, none⟩ [] rfl).1]
  rfl

/-- C7: a `!lastfeed` invocation whose argument does not parse as an
integer is answered, for every Gateway whatsoever (so without any Gateway
query for news), with "Wrong command: <input>, use: !lastfeed <feedid>" —
which contains the literal substring "Wrong command" and echoes the
offending input. -/
theorem lastfeed_bad_id_wrong_command (db : DB) (nick msg : Str)
    (hpre : startswith (lit "!lastfeed") msg = true)
    (hparse : pyInt (pyStrip (replaceAll (lit "!lastfeed") [] msg)) = none) :
    handle_msg db nick msg
        = lit "Wrong command: " ++ msg ++ lit ", use: !lastfeed <feedid>"
      ∧ List.IsInfix (lit "Wrong command") (handle_msg db nick msg)
      ∧ List.IsInfix msg (handle_msg db nick msg) := by
  obtain ⟨t, rfl⟩ := startswith_eq_append hpre
  have hlen : (lit "!lastfeed" ++ t).length = 9 + t.length := by
    rw [List.length_append]
    rfl
  have h1 : lit "!lastfeed" ++ t ≠ lit "!help" := by
    intro he
    have hl := congrArg List.length he
    rw [hlen, show (lit "!help").length = 5 from rfl] at hl
    omega
  have h2 : lit "!lastfeed" ++ t ≠ lit "!list" := by
    intro he
    have hl := congrArg List.length he
    rw [hlen, show (lit "!list").length = 5 from rfl] at hl
    omega
  have h3 : lit "!lastfeed" ++ t ≠ lit "!stats" := by
    intro he
    have hl := congrArg List.length he
    rw [hlen, show (lit "!stats").length = 6 from rfl] at hl
    omega
  have h4 : lit "!lastfeed" ++ t ≠ lit "!last" := by
    intro he
    have hl := congrArg List.length he
    rw [hlen, show (lit "!last").length = 5 from rfl] at hl
    omega
  have hans : handle_msg db nick (lit "!lastfeed" ++ t)
      = lit "Wrong command: " ++ (lit "!lastfeed" ++ t) ++ lit ", use: !lastfeed <feedid>" := by
    unfold handle_msg computeAnswer
    rw [if_neg h1, if_neg h2, if_neg h3, if_neg h4, if_pos hpre, hparse]
  refine ⟨hans, ?_, ?_⟩
  · rw [hans, show lit "Wrong command: " = lit "Wrong command" ++ lit ": " from rfl]
    exact (((List.prefix_append (lit "Wrong command") (lit ": ")).trans
      (List.prefix_append (lit "Wrong command" ++ lit ": ") (lit "!lastfeed" ++ t))).trans
      (List.prefix_append ((lit "Wrong command" ++ lit ": ") ++ (lit "!lastfeed" ++ t))
        (lit ", use: !lastfeed <feedid>"))).isInfix
  · rw [hans]
    exact ⟨lit "Wrong command: ", lit ", use: !lastfeed <feedid>", rfl⟩

/-- Witness for C7: "!lastfeed abc" against the all-failing Gateway gets
the usage error naming the input, not the generic failure reply. -/
theorem lastfeed_bad_id_wrong_command_witness :
    handle_msg failDB (lit "n") (lit "!lastfeed abc")
      = lit "Wrong command: " ++ lit "!lastfeed abc" ++ lit ", use: !lastfeed <feedid>" :=
  (lastfeed_bad_id_wrong_command failDB (lit "n") (lit "!lastfeed abc")
    (by rfl) (by rfl)).1

/-- Announcements of a fetch pass are exactly the new-reporting inserts,
formatted, in order. -/
lemma fetch_entries_announcements_eq (shorten : Str → Except Unit Str)
    (feedId : Nat) (feedName : Str) (st : GatewayState) (l : List Entry) :
    (fetch_entries shorten feedId feedName st l).announcements
      = ((fetch_entries shorten feedId feedName st l).inserts.filter
          (fun i => i.isNew)).map
          (fun i => post_news_msg feedName i.title i.url i.date) := by
  induction l generalizing st with
  | nil => rfl
  | cons e rest ih =>
    cases hs : shorten e.link with
    | error u => simp [fetch_entries, hs]
    | ok s =>
      rw [fetch_entries_cons_ok shorten feedId feedName st e rest s hs]
      dsimp only
      cases hnew : (insert_news st feedId e.title
          (if s = lit "Error" then e.link else s) (dateOf e)).1 with
      | false => simp [hnew, List.filter, ih]
      | true => simp [hnew, List.filter, ih]

/-- Inserting a second time with the same (feed id, url) reports not-new. -/
lemma insert_news_second_false (feedId : Nat) (st : GatewayState)
    (t u d t2 d2 : Str) :
    (insert_news (insert_news st feedId t u d).2 feedId t2 u d2).1 = false := by
  by_cases hmem : (feedId, u) ∈ st.seen <;> simp [insert_news, hmem]

/-- C1: in every fetch cycle, an announcement is forwarded to the channel
exactly for the inserts the Gateway reports as new — one announcement per
new-reporting insert, none otherwise; and the Gateway reports new at most
once per (feed id, url): any second insert with the same pair returns
false. -/
theorem announce_only_new_inserts (shorten : Str → Except Unit Str)
    (feedId : Nat) (feedName : Str) (entries : List Entry) (st : GatewayState) :
    (fetch_feed_cycle shorten feedId feedName entries st).announcements
      = ((fetch_feed_cycle shorten feedId feedName entries st).inserts.filter
          (fun i => i.isNew)).map
          (fun i => post_news_msg feedName i.title i.url i.date)
    ∧ ∀ (st' : GatewayState) (t u d t2 d2 : Str),
        (insert_news (insert_news st' feedId t u d).2 feedId t2 u d2).1 = false :=
  ⟨fetch_entries_announcements_eq shorten feedId feedName st entries.reverse,
    fun st' t u d t2 d2 => insert_news_second_false feedId st' t u d t2 d2⟩

/-- When every entry's shortening call returns, the insert trace is the
entry list itself, in order, with the resolved url and date. -/
lemma fetch_entries_inserts_map (shorten : Str → Except Unit Str)
    (feedId : Nat) (feedName : Str) (st : GatewayState) (l : List Entry)
    (h : ∀ e ∈ l, ∃ s, shorten e.link = Except.ok s) :
    (fetch_entries shorten feedId feedName st l).inserts.map
        (fun i => (i.title, i.url, i.date))
      = l.map (fun e => (e.title, urlOf shorten e, dateOf e)) := by
  induction l generalizing st with
  | nil => rfl
  | cons e rest ih =>
    obtain ⟨s, hs⟩ := h e (List.mem_cons_self e rest)
    rw [fetch_entries_cons_ok shorten feedId feedName st e rest s hs]
    dsimp only
    rw [List.map_cons, List.map_cons]
    have hurl : (if s = lit "Error" then e.link else s) = urlOf shorten e := by
      unfold urlOf
      rw [hs]
    rw [hurl]
    rw [ih _ (fun e' he' => h e' (List.mem_cons_of_mem e he'))]

/-- Announcements are emitted in processing order: they form a sublist of
the per-entry announcements over the processed list. -/
lemma fetch_entries_announcements_sublist (shorten : Str → Except Unit Str)
    (feedId : Nat) (feedName : Str) (st : GatewayState) (l : List Entry) :
    List.Sublist (fetch_entries shorten feedId feedName st l).announcements
      (l.map (fun e =>
        post_news_msg feedName e.title (urlOf shorten e) (dateOf e))) := by
  induction l generalizing st with
  | nil => simp [fetch_entries]
  | cons e rest ih =>
    cases hs : shorten e.link with
    | error u => simp [fetch_entries, hs]
    | ok s =>
      rw [fetch_entries_cons_ok shorten feedId feedName st e rest s hs]
      dsimp only
      have hurl : (if s = lit "Error" then e.link else s) = urlOf shorten e := by
        unfold urlOf
        rw [hs]
      rw [hurl, List.map_cons]
      cases hnew : (insert_news st feedId e.title (urlOf shorten e) (dateOf e)).1 with
      | false =>
        have hsub := List.Sublist.cons
          (post_news_msg feedName e.title (urlOf shorten e) (dateOf e))
          (ih (insert_news st feedId e.title (urlOf shorten e) (dateOf e)).2)
        simpa using hsub
      | true =>
        have hsub := List.Sublist.cons₂
          (post_news_msg feedName e.title (urlOf shorten e) (dateOf e))
          (ih (insert_news st feedId e.title (urlOf shorten e) (dateOf e)).2)
        simpa using hsub

/-- C2: when the shortening capability returns for every entry (no raised
exception cuts the loop short), one fetch cycle processes the document's
entry list E in exactly the reverse of E's order — the insert trace is the
reversed list — and the announcements for the new entries are emitted in
that same oldest-first order. -/
theorem entries_processed_oldest_first (shorten : Str → Except Unit Str)
    (feedId : Nat) (feedName : Str) (entries : List Entry) (st : GatewayState)
    (h : ∀ e ∈ entries, ∃ s, shorten e.link = Except.ok s) :
    (fetch_feed_cycle shorten feedId feedName entries st).inserts.map
        (fun i => (i.title, i.url, i.date))
      = entries.reverse.map (fun e => (e.title, urlOf shorten e, dateOf e))
    ∧ List.Sublist
        (fetch_feed_cycle shorten feedId feedName entries st).announcements
        (entries.reverse.map (fun e =>
          post_news_msg feedName e.title (urlOf shorten e) (dateOf e))) :=
  ⟨fetch_entries_inserts_map shorten feedId feedName st entries.reverse
      (fun e he => h e (List.mem_reverse.mp he)),
    fetch_entries_announcements_sublist shorten feedId feedName st entries.reverse⟩

/-- Witness for C2: two concrete entries, delivered newest-first, are
processed and announced oldest-first. -/
theorem entries_processed_oldest_first_witness :
    (fetch_feed_cycle (fun l => Except.ok ('s' :: l)) 1 (lit "F")
        [⟨lit "t1", lit "u1", some (lit "d1"), none⟩,
         ⟨lit "t2", lit "u2", none, none⟩] ⟨[]⟩).inserts.map
        (fun i => (i.title, i.url, i.date))
      = ([⟨lit "t1", lit "u1", some (lit "d1"), none⟩,
          ⟨lit "t2", lit "u2", none, none⟩] : List Entry).reverse.map
          (fun e => (e.title, urlOf (fun l => Except.ok ('s' :: l)) e, dateOf e)) :=
  (entries_processed_oldest_first (fun l => Except.ok ('s' :: l)) 1 (lit "F")
    [⟨lit "t1", lit "u1", some (lit "d1"), none⟩,
     ⟨lit "t2", lit "u2", none, none⟩] ⟨[]⟩
    (fun e _ => ⟨'s' :: e.link, rfl⟩)).1

/-- A text without a newline splits into the single line it is. -/
lemma splitNl_no_newline (msg : Str) (h : '\n' ∉ msg) : splitNl msg = [msg] := by
  induction msg with
  | nil => rfl
  | cons c cs ih =>
    have hc : ¬(c = '\n') := fun hc' => h (hc' ▸ List.mem_cons_self c cs)
    have hcs : '\n' ∉ cs := fun hm => h (List.mem_cons_of_mem c hm)
    rw [splitNl, if_neg hc, ih hcs]

/-- Concatenating the 510-chunks restores the line. -/
lemma chunks510_flatten_aux :
    ∀ (n : Nat) (l : Str), l.length ≤ n → (chunks510 l).flatten = l := by
  intro n
  induction n with
  | zero =>
    intro l hl
    have : l = [] := List.eq_nil_of_length_eq_zero (Nat.le_zero.mp hl)
    rw [this, chunks510]
    simp
  | succ n ih =>
    intro l hl
    rw [chunks510]
    by_cases h : l = []
    · simp [h]
    · rw [dif_neg h, List.flatten_cons,
        ih (l.drop 510) (by rw [List.length_drop]; omega)]
      exact List.take_append_drop 510 l

/-- Every 510-chunk has length at most 510. -/
lemma chunks510_chunk_le :
    ∀ (n : Nat) (l : Str), l.length ≤ n → ∀ c ∈ chunks510 l, c.length ≤ 510 := by
  intro n
  induction n with
  | zero =>
    intro l hl c hc
    have : l = [] := List.eq_nil_of_length_eq_zero (Nat.le_zero.mp hl)
    rw [this, chunks510] at hc
    simp at hc
  | succ n ih =>
    intro l hl c hc
    rw [chunks510] at hc
    by_cases h : l = []
    · rw [dif_pos h] at hc
      simp at hc
    · rw [dif_neg h] at hc
      rcases List.mem_cons.mp hc with hc1 | hc2
      · rw [hc1, List.length_take]
        omega
      · exact ih (l.drop 510) (by rw [List.length_drop]; omega) c hc2

/-- A non-empty line yields exactly ⌈length / 510⌉ chunks. -/
lemma chunks510_count_aux :
    ∀ (n : Nat) (l : Str), l.length ≤ n → l ≠ [] →
      (chunks510 l).length = (l.length + 509) / 510 := by
  intro n
  induction n with
  | zero =>
    intro l hl hne
    exact absurd (List.eq_nil_of_length_eq_zero (Nat.le_zero.mp hl)) hne
  | succ n ih =>
    intro l hl hne
    rw [chunks510, dif_neg hne]
    by_cases hle : l.length ≤ 510
    · have hd : l.drop 510 = [] := List.drop_eq_nil_of_le hle
      have h0 : chunks510 ([] : Str) = [] := by
        rw [chunks510]
        simp
      rw [hd, h0]
      have hpos : 0 < l.length := List.length_pos.mpr hne
      simp only [List.length_cons, List.length_nil]
      omega
    · have hd : l.drop 510 ≠ [] := by
        intro hd'
        have := congrArg List.length hd'
        rw [List.length_drop] at this
        simp at this
        omega
      rw [List.length_cons,
        ih (l.drop 510) (by rw [List.length_drop]; omega) hd, List.length_drop]
      omega

/-- C3: `send_msg` splits on line boundaries into chunks of at most 510
characters; for a single-line text longer than 510, it emits exactly
⌈length / 510⌉ chunks, each of length at most 510, whose in-order
concatenation is the original text. -/
theorem send_msg_chunking (msg : Str) (hnl : '\n' ∉ msg)
    (hlen : 510 < msg.length) :
    (send_msg msg).length = (msg.length + 509) / 510
    ∧ (∀ c ∈ send_msg msg, c.length ≤ 510)
    ∧ (send_msg msg).flatten = msg := by
  have hne : msg ≠ [] := by
    intro h
    rw [h] at hlen
    simp at hlen
  have hsend : send_msg msg = chunks510 msg := by
    unfold send_msg
    rw [splitNl_no_newline msg hnl]
    simp [List.flatMap]
  rw [hsend]
  exact ⟨chunks510_count_aux msg.length msg le_rfl hne,
    chunks510_chunk_le msg.length msg le_rfl,
    chunks510_flatten_aux msg.length msg le_rfl⟩

/-- Witness for C3: a 511-character single-line text is sent as 2 chunks
of at most 510 characters that concatenate back to the text. -/
theorem send_msg_chunking_witness :
    (send_msg (List.replicate 511 'a')).length
        = ((List.replicate 511 'a' : Str).length + 509) / 510
    ∧ (∀ c ∈ send_msg (List.replicate 511 'a'), c.length ≤ 510)
    ∧ (send_msg (List.replicate 511 'a')).flatten = List.replicate 511 'a' :=
  send_msg_chunking (List.replicate 511 'a')
    (by
      intro h
      rw [List.mem_replicate] at h
      exact absurd h.2 (by decide))
    (by rw [List.length_replicate]; omega)
